import Mathlib

/-!
Verification of the Lumina backend answer-resolution pipeline.

The Python sources (`app.py`, the full pipeline, and `main.py`, the simple
variant) are shallowly embedded below.  External HTTP calls are modelled by
explicit environment values: a `FetchResult` is either `raised msg` (any
exception escaping the call: transport error, non-2xx after
`raise_for_status`, invalid JSON) or `ok body` (a decoded response body).
Provider response bodies are typed records with `Option` fields for every
key the Python code accesses, so a missing key is representable.
-/

/-- A chat message, as carried in the `history` list of a request. -/
structure Message where
  role : String
  content : String
deriving DecidableEq

/-- A citation entry `{title, uri}` as produced by the pipeline. -/
structure Source where
  title : String
  uri : String
deriving DecidableEq

/-- Python truthiness of an optional string (`None` and `""` are falsy). -/
def truthyOptStr : Option String → Bool
  | none => false
  | some s => !(s == "")

/-- One insertion step of the Python dict comprehension
`{v['uri']: v for v in sources}` (app.py line 179): if the uri key is
already present, the stored value is overwritten in place; otherwise the
entry is appended, so key order is first-insertion order. -/
def insertSource (acc : List Source) (s : Source) : List Source :=
  if s.uri ∈ acc.map Source.uri then
    acc.map fun t => if t.uri = s.uri then s else t
  else acc ++ [s]

/-- The Source Deduplicator:
`list({v['uri']: v for v in sources}.values())` (app.py line 179 /
main.py line 88), i.e. a left fold of dict insertion started from the
empty dict. -/
def dedupSources (sources : List Source) : List Source :=
  sources.foldl insertSource []

/-- One step of recording a uri the first time it is seen. -/
def insertUri (acc : List String) (u : String) : List String :=
  if u ∈ acc then acc else acc ++ [u]

/-- The distinct uris of the input, in first-occurrence order
(specification-side description of Python dict key order). -/
def firstSeenUris (l : List Source) : List String :=
  l.foldl (fun acc s => insertUri acc s.uri) []

/-- The last input record bearing a given uri (specification-side
description of dict value overwriting, last write wins). -/
def lastWithUri (l : List Source) (u : String) : Option Source :=
  (l.filter fun s => s.uri == u).getLast?

lemma map_uri_insertSource (acc : List Source) (s : Source) :
    (insertSource acc s).map Source.uri = insertUri (acc.map Source.uri) s.uri := by
  unfold insertSource insertUri
  by_cases h : s.uri ∈ acc.map Source.uri
  · simp only [h, if_true, List.map_map]
    apply List.map_congr_left
    intro t _
    by_cases ht : t.uri = s.uri <;> simp [Function.comp, ht]
  · simp [h]

lemma dedup_append_singleton (l : List Source) (x : Source) :
    dedupSources (l ++ [x]) = insertSource (dedupSources l) x := by
  simp [dedupSources, List.foldl_append]

lemma firstSeen_append_singleton (l : List Source) (x : Source) :
    firstSeenUris (l ++ [x]) = insertUri (firstSeenUris l) x.uri := by
  simp [firstSeenUris, List.foldl_append]

lemma dedup_map_uri (l : List Source) :
    (dedupSources l).map Source.uri = firstSeenUris l := by
  induction l using List.reverseRecOn with
  | nil => simp [dedupSources, firstSeenUris]
  | append_singleton l x ih =>
    rw [dedup_append_singleton, firstSeen_append_singleton, map_uri_insertSource, ih]

lemma insertUri_nodup {acc : List String} (h : acc.Nodup) (u : String) :
    (insertUri acc u).Nodup := by
  unfold insertUri
  by_cases hu : u ∈ acc
  · simpa [hu] using h
  · simp only [hu, if_false]
    simpa [List.nodup_append, hu] using h

lemma firstSeen_nodup (l : List Source) : (firstSeenUris l).Nodup := by
  induction l using List.reverseRecOn with
  | nil => simp [firstSeenUris]
  | append_singleton l x ih =>
    rw [firstSeen_append_singleton]
    exact insertUri_nodup ih x.uri

lemma mem_insertUri (acc : List String) (v u : String) :
    u ∈ insertUri acc v ↔ u ∈ acc ∨ u = v := by
  unfold insertUri
  by_cases hv : v ∈ acc
  · simp only [hv, if_true]
    constructor
    · exact Or.inl
    · rintro (h | rfl) <;> assumption
  · simp [hv]

lemma mem_firstSeen (l : List Source) (u : String) :
    u ∈ firstSeenUris l ↔ ∃ s ∈ l, s.uri = u := by
  induction l using List.reverseRecOn with
  | nil => simp [firstSeenUris]
  | append_singleton l x ih =>
    rw [firstSeen_append_singleton, mem_insertUri, ih]
    constructor
    · rintro (⟨s, hs, rfl⟩ | rfl)
      · exact ⟨s, by simp [hs]⟩
      · exact ⟨x, by simp⟩
    · rintro ⟨s, hs, rfl⟩
      rcases List.mem_append.mp hs with h | h
      · exact Or.inl ⟨s, h, rfl⟩
      · simp only [List.mem_singleton] at h
        subst h
        exact Or.inr rfl

lemma lastWithUri_append_same (l : List Source) (x : Source) :
    lastWithUri (l ++ [x]) x.uri = some x := by
  unfold lastWithUri
  rw [List.filter_append]
  simp [List.filter]

lemma lastWithUri_append_ne (l : List Source) (x : Source) (u : String)
    (h : x.uri ≠ u) : lastWithUri (l ++ [x]) u = lastWithUri l u := by
  unfold lastWithUri
  rw [List.filter_append]
  have hb : (x.uri == u) = false := beq_eq_false_iff_ne.mpr h
  simp [List.filter, hb]

lemma dedup_last_write (l : List Source) :
    ∀ s ∈ dedupSources l, lastWithUri l s.uri = some s := by
  induction l using List.reverseRecOn with
  | nil => simp [dedupSources]
  | append_singleton l x ih =>
    intro s hs
    rw [dedup_append_singleton] at hs
    unfold insertSource at hs
    by_cases hx : x.uri ∈ (dedupSources l).map Source.uri
    · simp only [hx, if_true, List.mem_map] at hs
      obtain ⟨t, ht, rfl⟩ := hs
      by_cases htx : t.uri = x.uri
      · simp only [htx, if_true]
        have : x.uri = x.uri := rfl
        simpa using lastWithUri_append_same l x
      · simp only [htx, if_false]
        rw [lastWithUri_append_ne l x t.uri (fun h => htx h.symm)]
        exact ih t ht
    · simp only [hx, if_false, List.mem_append, List.mem_singleton] at hs
      rcases hs with hs | hsx
      · have hne : s.uri ≠ x.uri := by
          intro h
          exact hx (h ▸ List.mem_map_of_mem Source.uri hs)
        rw [lastWithUri_append_ne l x s.uri (fun h => hne h.symm)]
        exact ih s hs
      · subst hsx
        exact lastWithUri_append_same _ _

/-- **C1.** The Source Deduplicator (app.py line 179 / main.py line 88,
`list({v['uri']: v for v in sources}.values())`): the output lists
exactly one entry per distinct uri of the input (exact, case-sensitive
string match), in first-insertion order of distinct uris, and each kept
entry is the last input record bearing its uri (last write wins). -/
theorem dedup_sources_spec (l : List Source) :
    ((dedupSources l).map Source.uri = firstSeenUris l) ∧
    (firstSeenUris l).Nodup ∧
    (∀ u, u ∈ firstSeenUris l ↔ ∃ s ∈ l, s.uri = u) ∧
    (∀ s ∈ dedupSources l, lastWithUri l s.uri = some s) :=
  ⟨dedup_map_uri l, firstSeen_nodup l, mem_firstSeen l, dedup_last_write l⟩

/-- A sample input: two records share uri `"u"`, a third has uri `"v"`. -/
def demoSources : List Source :=
  [⟨"t1", "u"⟩, ⟨"t2", "v"⟩, ⟨"t3", "u"⟩]

/-- Witness for `dedup_sources_spec` at a concrete input: the kept entry
for uri `"u"` carries the later title `"t3"` and output order is
first-insertion order `["u", "v"]`. -/
theorem dedup_sources_spec_witness :
    (dedupSources demoSources).map Source.uri = ["u", "v"] ∧
    lastWithUri demoSources "u" = some ⟨"t3", "u"⟩ := by
  have h := dedup_sources_spec demoSources
  refine ⟨?_, ?_⟩
  · rw [h.1]; decide
  · have hm : (⟨"t3", "u"⟩ : Source) ∈ dedupSources demoSources := by decide
    simpa using h.2.2.2 ⟨"t3", "u"⟩ hm

lemma foldl_insert_of_nodup :
    ∀ (m acc : List Source), (acc.map Source.uri ++ m.map Source.uri).Nodup →
      m.foldl insertSource acc = acc ++ m := by
  intro m
  induction m with
  | nil => intro acc _; simp
  | cons s m' ih =>
    intro acc hnd
    have hmem : s.uri ∉ acc.map Source.uri := by
      rw [List.nodup_append] at hnd
      intro hin
      exact hnd.2.2 hin (by simp)
    have hstep : insertSource acc s = acc ++ [s] := by
      simp [insertSource, hmem]
    rw [List.foldl_cons, hstep, ih (acc ++ [s]) (by simpa using hnd)]
    simp

/-- **C10.** The Source Deduplicator is idempotent: applying the
uri-keyed merge to its own output returns that output unchanged (same
entries, same titles, same order). -/
theorem dedup_sources_idempotent (l : List Source) :
    dedupSources (dedupSources l) = dedupSources l := by
  have hnd : ((dedupSources l).map Source.uri).Nodup := by
    rw [dedup_map_uri]
    exact firstSeen_nodup l
  have := foldl_insert_of_nodup (dedupSources l) [] (by simpa using hnd)
  simpa [dedupSources] using this

/-- Witness for `dedup_sources_idempotent` at a concrete input. -/
theorem dedup_sources_idempotent_witness :
    dedupSources (dedupSources demoSources) = dedupSources demoSources :=
  dedup_sources_idempotent demoSources

/-- The character class of the URL regex on app.py line 50,
`http[s]?://(?:[a-zA-Z]|[0-9]|[$-_@.&+]|[!*\\(\\),]|(?:%[0-9a-fA-F][0-9a-fA-F]))+`.
`$-_` is a character range (codepoints 0x24 to 0x5F).  The `%XX`
alternative adds no characters beyond this set, because `%` lies in the
`$-_` range and hex digits are letters/digits; since every alternative
can consume a single allowed character, the greedy `+` consumes exactly
the maximal run of `urlChar` characters. -/
def urlChar (c : Char) : Bool :=
  decide ((('a' ≤ c ∧ c ≤ 'z') ∨ ('A' ≤ c ∧ c ≤ 'Z')) ∨ ('0' ≤ c ∧ c ≤ '9') ∨
    ('$' ≤ c ∧ c ≤ '_') ∨ c = '@' ∨ c = '.' ∨ c = '&' ∨ c = '+' ∨
    c = '!' ∨ c = '*' ∨ c = '\\' ∨ c = '(' ∨ c = ')' ∨ c = ',')

/-- The scheme literal `http://` of the regex. -/
def httpPre : List Char := ['h', 't', 't', 'p', ':', '/', '/']

/-- The scheme literal `https://` of the regex (`http[s]?://` with `s`). -/
def httpsPre : List Char := ['h', 't', 't', 'p', 's', ':', '/', '/']

/-- `startsWithChars p cs` holds when `p` is an initial segment of `cs`. -/
def startsWithChars : List Char → List Char → Bool
  | [], _ => true
  | _ :: _, [] => false
  | p :: ps, c :: cs => p == c && startsWithChars ps cs

/-- The scheme matched at the current position, with its length:
`http[s]?` is greedy, so `https://` is tried before `http://`. -/
def schemeLen (cs : List Char) : Option Nat :=
  if startsWithChars httpsPre cs then some 8
  else if startsWithChars httpPre cs then some 7
  else none

/-- The regex match attempted at one start position: a scheme followed by
a maximal non-empty run of `urlChar` characters. -/
def matchUrlAt (cs : List Char) : Option (List Char) :=
  match schemeLen cs with
  | none => none
  | some n =>
    if ((cs.drop n).takeWhile urlChar).isEmpty then none
    else some (cs.take n ++ (cs.drop n).takeWhile urlChar)

/-- `re.search` semantics: try each start position left to right and
return the first position whose match attempt succeeds. -/
def searchUrl : List Char → Option (List Char)
  | [] => none
  | c :: cs =>
    match matchUrlAt (c :: cs) with
    | some m => some m
    | none => searchUrl cs

/-- `extract_url` (app.py lines 49-51): `re.search(pattern, text)`,
returning `match.group(0)` on success and `None` otherwise. -/
def extract_url (text : String) : Option String :=
  (searchUrl text.toList).map String.mk

/-- `next((m["content"] for m in reversed(history) if m["role"] == "user"), "")`
(app.py line 140): content of the most recent user-role message, or `""`. -/
def lastUserMsg (history : List Message) : String :=
  match history.reverse.find? (fun m => m.role == "user") with
  | some m => m.content
  | none => ""

/-- Specification-side: `m` is a well-formed URL token, i.e. a scheme
followed by a non-empty run of allowed characters. -/
def isUrlToken (m : List Char) : Prop :=
  ∃ run, (m = httpPre ++ run ∨ m = httpsPre ++ run) ∧ run ≠ [] ∧
    ∀ c ∈ run, urlChar c = true

/-- Specification-side: some URL token occurs somewhere in `cs`. -/
def hasUrlOccurrence (cs : List Char) : Prop :=
  ∃ i m, isUrlToken m ∧ startsWithChars m (cs.drop i) = true

/-- Specification-side: `m` is the first maximal URL match in `cs`: a URL
token occurring in `cs`, not extendable to the right by an allowed
character, with no URL token starting at any earlier position. -/
def isFirstMaximalUrl (cs m : List Char) : Prop :=
  isUrlToken m ∧
  ∃ pre post, cs = pre ++ m ++ post ∧
    (∀ c, post.head? = some c → urlChar c = false) ∧
    (∀ j m', j < pre.length → isUrlToken m' → startsWithChars m' (cs.drop j) = false)

lemma startsWithChars_iff (p : List Char) : ∀ cs,
    startsWithChars p cs = true ↔ ∃ rest, cs = p ++ rest := by
  induction p with
  | nil => intro cs; simp [startsWithChars]
  | cons a ps ih =>
    intro cs
    cases cs with
    | nil => simp [startsWithChars]
    | cons c cs =>
      simp only [startsWithChars, Bool.and_eq_true, beq_iff_eq, ih cs, List.cons_append]
      constructor
      · rintro ⟨rfl, rest, rfl⟩
        exact ⟨rest, rfl⟩
      · rintro ⟨rest, h⟩
        injection h with h1 h2
        exact ⟨h1.symm, rest, h2⟩

lemma dropWhile_head_false (p : Char → Bool) :
    ∀ (l : List Char) (c : Char), (l.dropWhile p).head? = some c → p c = false := by
  intro l
  induction l with
  | nil => intro c h; simp [List.dropWhile] at h
  | cons a l ih =>
    intro c h
    by_cases hp : p a = true
    · rw [List.dropWhile_cons, if_pos hp] at h
      exact ih c h
    · rw [List.dropWhile_cons, if_neg hp] at h
      simp only [List.head?_cons, Option.some.injEq] at h
      subst h
      simpa using hp

lemma takeWhile_all_true (p : Char → Bool) (l : List Char) :
    ∀ c ∈ l.takeWhile p, p c = true := fun _ hc => List.mem_takeWhile_imp hc

lemma matchUrlAt_nil : matchUrlAt [] = none := rfl

lemma matchUrlAt_eq_none (cs : List Char) (h : schemeLen cs = none) :
    matchUrlAt cs = none := by
  unfold matchUrlAt
  rw [h]

lemma matchUrlAt_eq_some (cs : List Char) (n : Nat) (h : schemeLen cs = some n) :
    matchUrlAt cs = if ((cs.drop n).takeWhile urlChar).isEmpty then none
      else some (cs.take n ++ (cs.drop n).takeWhile urlChar) := by
  unfold matchUrlAt
  rw [h]

lemma schemeLen_some (cs : List Char) (n : Nat) (h : schemeLen cs = some n) :
    (n = 8 ∧ ∃ rest, cs = httpsPre ++ rest) ∨
    (n = 7 ∧ ∃ rest, cs = httpPre ++ rest) := by
  unfold schemeLen at h
  by_cases h8 : startsWithChars httpsPre cs = true
  · rw [if_pos h8] at h
    injection h with h'
    exact Or.inl ⟨h'.symm, (startsWithChars_iff _ _).mp h8⟩
  · rw [if_neg h8] at h
    by_cases h7 : startsWithChars httpPre cs = true
    · rw [if_pos h7] at h
      injection h with h'
      exact Or.inr ⟨h'.symm, (startsWithChars_iff _ _).mp h7⟩
    · rw [if_neg h7] at h
      exact absurd h (by simp)

lemma matchUrlAt_sound (cs m : List Char) (h : matchUrlAt cs = some m) :
    isUrlToken m ∧ ∃ post, cs = m ++ post ∧
      ∀ c, post.head? = some c → urlChar c = false := by
  cases hs : schemeLen cs with
  | none => rw [matchUrlAt_eq_none cs hs] at h; exact absurd h (by simp)
  | some n =>
    rw [matchUrlAt_eq_some cs n hs] at h
    by_cases hrun : ((cs.drop n).takeWhile urlChar).isEmpty = true
    · rw [if_pos hrun] at h
      exact absurd h (by simp)
    · rw [if_neg hrun] at h
      injection h with hm
      have hrun' : (cs.drop n).takeWhile urlChar ≠ [] := by
        simpa [List.isEmpty_iff] using hrun
      rcases schemeLen_some cs n hs with ⟨rfl, rest, hcs⟩ | ⟨rfl, rest, hcs⟩
      · subst hcs
        rw [List.take_left' (show httpsPre.length = 8 from rfl),
          List.drop_left' (show httpsPre.length = 8 from rfl)] at hm
        rw [List.drop_left' (show httpsPre.length = 8 from rfl)] at hrun'
        subst hm
        refine ⟨⟨rest.takeWhile urlChar, Or.inr rfl, hrun', takeWhile_all_true _ _⟩,
          rest.dropWhile urlChar, ?_, dropWhile_head_false urlChar rest⟩
        rw [List.append_assoc, List.takeWhile_append_dropWhile]
      · subst hcs
        rw [List.take_left' (show httpPre.length = 7 from rfl),
          List.drop_left' (show httpPre.length = 7 from rfl)] at hm
        rw [List.drop_left' (show httpPre.length = 7 from rfl)] at hrun'
        subst hm
        refine ⟨⟨rest.takeWhile urlChar, Or.inl rfl, hrun', takeWhile_all_true _ _⟩,
          rest.dropWhile urlChar, ?_, dropWhile_head_false urlChar rest⟩
        rw [List.append_assoc, List.takeWhile_append_dropWhile]

lemma matchUrlAt_complete (cs m : List Char) (hm : isUrlToken m)
    (hsw : startsWithChars m cs = true) : (matchUrlAt cs).isSome := by
  obtain ⟨run, hsch, hne, hall⟩ := hm
  obtain ⟨rest, rfl⟩ := (startsWithChars_iff _ _).mp hsw
  have hrunUrl : ∀ (tail : List Char), ¬ ((run ++ tail).takeWhile urlChar).isEmpty = true := by
    intro tail
    cases run with
    | nil => exact absurd rfl hne
    | cons c run' =>
      have hc : urlChar c = true := hall c (by simp)
      simp [List.takeWhile_cons, hc]
  rcases hsch with rfl | rfl
  · -- m = httpPre ++ run
    have hnot8 : ¬ startsWithChars httpsPre ((httpPre ++ run) ++ rest) = true := by
      rw [List.append_assoc]
      simp [httpPre, httpsPre, startsWithChars]
    have h7 : startsWithChars httpPre ((httpPre ++ run) ++ rest) = true := by
      rw [List.append_assoc]
      exact (startsWithChars_iff _ _).mpr ⟨run ++ rest, rfl⟩
    have hsl : schemeLen ((httpPre ++ run) ++ rest) = some 7 := by
      unfold schemeLen
      rw [if_neg hnot8, if_pos h7]
    have hdrop : ((httpPre ++ run) ++ rest).drop 7 = run ++ rest := by
      rw [List.append_assoc]
      exact List.drop_left' (show httpPre.length = 7 from rfl)
    rw [matchUrlAt_eq_some _ _ hsl, hdrop, if_neg (hrunUrl rest)]
    simp
  · -- m = httpsPre ++ run
    have h8 : startsWithChars httpsPre ((httpsPre ++ run) ++ rest) = true := by
      rw [List.append_assoc]
      exact (startsWithChars_iff _ _).mpr ⟨run ++ rest, rfl⟩
    have hsl : schemeLen ((httpsPre ++ run) ++ rest) = some 8 := by
      unfold schemeLen
      rw [if_pos h8]
    have hdrop : ((httpsPre ++ run) ++ rest).drop 8 = run ++ rest := by
      rw [List.append_assoc]
      exact List.drop_left' (show httpsPre.length = 8 from rfl)
    rw [matchUrlAt_eq_some _ _ hsl, hdrop, if_neg (hrunUrl rest)]
    simp

lemma searchUrl_none (cs : List Char) (h : searchUrl cs = none) :
    ∀ j, matchUrlAt (cs.drop j) = none := by
  induction cs with
  | nil =>
    intro j
    simp only [List.drop_nil]
    exact matchUrlAt_nil
  | cons c cs ih =>
    intro j
    unfold searchUrl at h
    cases hm : matchUrlAt (c :: cs) with
    | some m => rw [hm] at h; exact absurd h (by simp)
    | none =>
      rw [hm] at h
      cases j with
      | zero => simpa using hm
      | succ j' => simpa using ih h j'

lemma searchUrl_some (cs m : List Char) (h : searchUrl cs = some m) :
    ∃ k, k ≤ cs.length ∧ matchUrlAt (cs.drop k) = some m ∧
      ∀ j, j < k → matchUrlAt (cs.drop j) = none := by
  induction cs with
  | nil => rw [show searchUrl [] = none from rfl] at h; exact absurd h (by simp)
  | cons c cs ih =>
    unfold searchUrl at h
    cases hm : matchUrlAt (c :: cs) with
    | some m' =>
      rw [hm] at h
      injection h with h'
      subst h'
      exact ⟨0, Nat.zero_le _, hm, fun j hj => absurd hj (by omega)⟩
    | none =>
      rw [hm] at h
      obtain ⟨k, hk, hmk, hnone⟩ := ih h
      refine ⟨k + 1, by simpa using Nat.succ_le_succ hk, by simpa using hmk, ?_⟩
      intro j hj
      cases j with
      | zero => simpa using hm
      | succ j' => simpa using hnone j' (by omega)

lemma searchUrl_first_maximal (cs m : List Char) (h : searchUrl cs = some m) :
    isFirstMaximalUrl cs m := by
  obtain ⟨k, hk, hmk, hnone⟩ := searchUrl_some cs m h
  obtain ⟨htok, post, hdecomp, hpost⟩ := matchUrlAt_sound _ _ hmk
  refine ⟨htok, cs.take k, post, ?_, hpost, ?_⟩
  · rw [List.append_assoc, ← hdecomp, List.take_append_drop]
  · intro j m' hj htok'
    have hjk : j < k := by
      rw [List.length_take] at hj
      omega
    by_contra hsw
    have hsw' : startsWithChars m' (cs.drop j) = true := by
      revert hsw
      cases startsWithChars m' (cs.drop j) <;> simp
    have hsome := matchUrlAt_complete (cs.drop j) m' htok' hsw'
    rw [hnone j hjk] at hsome
    simp at hsome

lemma searchUrl_isSome_iff (cs : List Char) :
    (searchUrl cs).isSome = true ↔ hasUrlOccurrence cs := by
  constructor
  · intro h
    obtain ⟨m, hm⟩ := Option.isSome_iff_exists.mp h
    obtain ⟨k, _, hmk, _⟩ := searchUrl_some cs m hm
    obtain ⟨htok, post, hdecomp, _⟩ := matchUrlAt_sound _ _ hmk
    exact ⟨k, m, htok, (startsWithChars_iff _ _).mpr ⟨post, hdecomp⟩⟩
  · rintro ⟨i, m, htok, hsw⟩
    have hsome := matchUrlAt_complete (cs.drop i) m htok hsw
    cases hsu : searchUrl cs with
    | some m' => simp
    | none =>
      rw [searchUrl_none cs hsu i] at hsome
      simp at hsome

lemma find?_append_none {α : Type} (p : α → Bool) (l₁ l₂ : List α)
    (h : l₁.find? p = none) : (l₁ ++ l₂).find? p = l₂.find? p := by
  induction l₁ with
  | nil => simp
  | cons a l ih =>
    by_cases hp : p a = true
    · rw [List.find?_cons_of_pos _ hp] at h
      exact absurd h (by simp)
    · rw [List.find?_cons_of_neg _ hp] at h
      rw [List.cons_append, List.find?_cons_of_neg _ hp]
      exact ih h

lemma lastUserMsg_eq (pre : List Message) (msg : Message) (post : List Message)
    (hrole : msg.role = "user") (hpost : ∀ m ∈ post, m.role ≠ "user") :
    lastUserMsg (pre ++ msg :: post) = msg.content := by
  unfold lastUserMsg
  have hrev : (pre ++ msg :: post).reverse = post.reverse ++ (msg :: pre.reverse) := by
    simp
  rw [hrev]
  have hnone : post.reverse.find? (fun m => m.role == "user") = none := by
    rw [List.find?_eq_none]
    intro m hm
    simp only [beq_iff_eq]
    exact hpost m (List.mem_reverse.mp hm)
  rw [find?_append_none _ _ _ hnone,
    List.find?_cons_of_pos _ (by simp [hrole])]

/-- **C2.** The URL Detector (app.py lines 49-51 and 140-141): for every
history, `extract_url` applied to the most recent user-role message
returns a URL iff that message contains a substring consisting of
`http://` or `https://` followed by at least one allowed character; any
returned value is the first maximal such match (so a scheme-less token
can never be returned); `lastUserMsg` is indeed the most recent user-role
message (or `""`); the allowed set contains every letter, digit, the
enumerated punctuation and the percent sign, so percent escapes are
covered.  Determinism holds because `extract_url` is a pure function. -/
theorem extract_url_spec (history : List Message) :
    ((extract_url (lastUserMsg history)).isSome = true ↔
        hasUrlOccurrence (lastUserMsg history).toList) ∧
    (∀ u, extract_url (lastUserMsg history) = some u →
        isFirstMaximalUrl (lastUserMsg history).toList u.toList) ∧
    (∀ pre msg post, history = pre ++ msg :: post → msg.role = "user" →
        (∀ m ∈ post, m.role ≠ "user") → lastUserMsg history = msg.content) ∧
    (∀ c, (('a' ≤ c ∧ c ≤ 'z') ∨ ('A' ≤ c ∧ c ≤ 'Z') ∨ ('0' ≤ c ∧ c ≤ '9')) →
        urlChar c = true) ∧
    (∀ c ∈ ['$', '-', '_', '@', '.', '&', '+', '!', '*', '(', ')', ',', '%'],
        urlChar c = true) := by
  refine ⟨?_, ?_, ?_, ?_, by decide⟩
  · rw [show (extract_url (lastUserMsg history)).isSome
        = (searchUrl (lastUserMsg history).toList).isSome by
      unfold extract_url
      cases searchUrl (lastUserMsg history).toList <;> rfl]
    exact searchUrl_isSome_iff _
  · intro u hu
    unfold extract_url at hu
    cases hs : searchUrl (lastUserMsg history).toList with
    | none => rw [hs] at hu; exact absurd hu (by simp)
    | some l =>
      rw [hs] at hu
      simp only [Option.map_some', Option.some.injEq] at hu
      subst hu
      exact searchUrl_first_maximal _ _ hs
  · intro pre msg post hh hrole hpost
    rw [hh]
    exact lastUserMsg_eq pre msg post hrole hpost
  · intro c hc
    unfold urlChar
    rw [decide_eq_true_eq]
    tauto

/-- A sample history whose last user message contains one URL. -/
def demoHistory : List Message :=
  [⟨"assistant", "hello"⟩, ⟨"user", "see http://ab and more"⟩]

/-- Witness for `extract_url_spec` at a concrete history: the last user
message contains a URL occurrence, so the detector returns a value. -/
theorem extract_url_spec_witness :
    (extract_url (lastUserMsg demoHistory)).isSome = true ∧
    hasUrlOccurrence (lastUserMsg demoHistory).toList := by
  have hocc : hasUrlOccurrence (lastUserMsg demoHistory).toList := by
    refine ⟨4, httpPre ++ ['a', 'b'], ⟨['a', 'b'], Or.inl rfl, by simp, by decide⟩, ?_⟩
    decide
  exact ⟨(extract_url_spec demoHistory).1.mpr hocc, hocc⟩

/-- Outcome of the crawler's fetch-and-parse phase (app.py lines 36-44):
either some exception was raised inside the `try` block (`requests.get`,
`raise_for_status`, HTML parsing), or it produced the visible text that
`soup.get_text(separator=' ', strip=True)` extracted. -/
inductive CrawlOutcome
  | raised (msg : String)
  | ok (rawText : String)
deriving DecidableEq

/-- Python string slicing `s[:n]`: the first `n` characters. -/
def pySlice (s : String) (n : Nat) : String :=
  String.mk (s.toList.take n)

/-- `crawl_specific_url` (app.py lines 34-47): on success the extracted
text truncated as `text[:8000]`; on any exception the fallback string
`f"Error crawling {url}: {str(e)}"`.  The `try/except Exception` wrapper
makes the function total over all outcomes: it never propagates an
exception to its caller. -/
def crawl_specific_url (url : String) (outcome : CrawlOutcome) : String :=
  match outcome with
  | .ok rawText => pySlice rawText 8000
  | .raised msg => "Error crawling " ++ url ++ ": " ++ msg

/-- **C3 counterexample.** The claim says the failure text is a failure
description prefixed with the offending URL.  At a concrete failing
fetch, the returned text does not begin with the URL (it begins with the
fixed words `Error crawling `). -/
theorem crawl_text_head_counterexample :
    (crawl_specific_url "http://x" (.raised "timed out")).toList.take 8
      ≠ "http://x".toList := by
  decide

/-- **C3 (amended).** For every URL and every fetch outcome the crawler
returns a plain string, never an exception: on success the truncated
extracted text, and on failure the string
`"Error crawling " ++ url ++ ": " ++ msg`, a human-readable description
that contains the offending URL (after the fixed words `Error crawling `,
rather than as the leading characters). -/
theorem crawl_never_raises (url : String) (o : CrawlOutcome) :
    (∀ msg, o = .raised msg →
      crawl_specific_url url o = "Error crawling " ++ url ++ ": " ++ msg ∧
      ∃ a b, crawl_specific_url url o = a ++ url ++ b) ∧
    (∀ rawText, o = .ok rawText → crawl_specific_url url o = pySlice rawText 8000) := by
  constructor
  · rintro msg rfl
    exact ⟨rfl, "Error crawling ", ": " ++ msg, by simp [crawl_specific_url, String.append_assoc]⟩
  · rintro rawText rfl
    rfl

/-- Witness for `crawl_never_raises` at a concrete failing fetch. -/
theorem crawl_never_raises_witness :
    crawl_specific_url "http://x" (.raised "timed out")
      = "Error crawling http://x: timed out" :=
  ((crawl_never_raises "http://x" (.raised "timed out")).1 "timed out" rfl).1

/-- A URL one character longer than the 8000-character cap. -/
def longUrl : String := String.mk (List.replicate 8001 'a')

/-- **C4 counterexample.** The claim says the returned text always has
length at most the 8000-character cap.  On the failure path the error
string is not truncated: crawling a long URL that raises gives a text
longer than 8000 characters. -/
theorem crawl_cap_counterexample :
    8000 < (crawl_specific_url longUrl (.raised "boom")).length := by
  have h : (crawl_specific_url longUrl (.raised "boom")).length
      = "Error crawling ".length + longUrl.length + ": ".length + "boom".length := by
    simp [crawl_specific_url, String.length_append]
  have hlen : longUrl.length = 8001 := by
    show (List.replicate 8001 'a').length = 8001
    rw [List.length_replicate]
  rw [h, hlen]
  decide

/-- **C4 (amended).** Only the success path is capped: on a successful
fetch the text has length `min 8000 (raw length)`, hence at most 8000;
on a failed fetch the text is the error string, whose length is the sum
of its parts and is not capped.  No `truncated` flag exists in this
variant: the function returns a bare string. -/
theorem crawl_length_spec (url : String) :
    (∀ rawText, (crawl_specific_url url (.ok rawText)).length
        = min 8000 rawText.length) ∧
    (∀ rawText, (crawl_specific_url url (.ok rawText)).length ≤ 8000) ∧
    (∀ msg, (crawl_specific_url url (.raised msg)).length
        = "Error crawling ".length + url.length + ": ".length + msg.length) := by
  have hps : ∀ (s : String) (n : Nat), (pySlice s n).length = min n s.length := by
    intro s n
    have h : (pySlice s n).length = (s.toList.take n).length := rfl
    rw [h, List.length_take]
    rfl
  refine ⟨?_, ?_, ?_⟩
  · intro rawText
    exact hps rawText 8000
  · intro rawText
    have h : (crawl_specific_url url (.ok rawText)).length = min 8000 rawText.length :=
      hps rawText 8000
    rw [h]
    exact Nat.min_le_left _ _
  · intro msg
    simp [crawl_specific_url, String.length_append]

/-- Witness for `crawl_length_spec` at concrete inputs. -/
theorem crawl_length_spec_witness :
    (crawl_specific_url "http://x" (.ok "hello")).length = min 8000 "hello".length :=
  (crawl_length_spec "http://x").1 "hello"

/-- Result of one outbound HTTP call: `raised` is any exception escaping
the call (connection error, non-2xx after `raise_for_status`, invalid
JSON body), `ok` a decoded body. -/
inductive FetchResult (α : Type)
  | raised (msg : String)
  | ok (val : α)
deriving DecidableEq

/-- One element of a candidate's `content.parts` list. -/
structure TextPart where
  text : Option String
deriving DecidableEq

/-- A candidate's `content`; `parts` is `none` when the key is absent. -/
structure Content where
  parts : Option (List TextPart)
deriving DecidableEq

/-- The `web` record of a grounding chunk or attribution. -/
structure WebInfo where
  uri : Option String
  title : Option String
deriving DecidableEq

/-- One entry of `groundingChunks` or `groundingAttributions`. -/
structure GroundingItem where
  web : Option WebInfo
deriving DecidableEq

/-- A candidate's `groundingMetadata`. -/
structure GroundingMeta where
  groundingChunks : Option (List GroundingItem)
  groundingAttributions : Option (List GroundingItem)
deriving DecidableEq

/-- One entry of the provider's `candidates` list. -/
structure Candidate where
  content : Option Content
  finishReason : Option String
  groundingMetadata : Option GroundingMeta
deriving DecidableEq

/-- A decoded generative-provider response body. -/
structure GeminiResult where
  candidates : Option (List Candidate)
deriving DecidableEq

/-- `candidate["content"]["parts"][0]["text"]`: `none` when any of the
key/index accesses would raise (missing key or empty list). -/
def extractAnswer (c : Candidate) : Option String :=
  match c.content with
  | none => none
  | some ct =>
    match ct.parts with
    | none => none
    | some [] => none
    | some (p :: _) => p.text

/-- `resp.json()["candidates"][0]["content"]["parts"][0]["text"]`:
`none` when any access would raise. -/
def geminiFirstText (body : GeminiResult) : Option String :=
  match body.candidates with
  | none => none
  | some [] => none
  | some (c :: _) => extractAnswer c

/-- `grounding.get("groundingChunks", []) + grounding.get("groundingAttributions", [])`
of the candidate (app.py lines 174-175). -/
def groundingItems (c : Candidate) : List GroundingItem :=
  match c.groundingMetadata with
  | none => []
  | some g => (g.groundingChunks).getD [] ++ (g.groundingAttributions).getD []

/-- The filter on app.py lines 176-178: keep an item only when
`item.get("web", {})` exposes a truthy `uri` and a truthy `title`. -/
def sourceOfItem (item : GroundingItem) : Option Source :=
  match item.web with
  | none => none
  | some w =>
    if truthyOptStr w.uri && truthyOptStr w.title then
      some { title := (w.title).getD "", uri := (w.uri).getD "" }
    else none

/-- The citation list collected from a candidate (app.py lines 173-178),
before deduplication. -/
def collectCitations (c : Candidate) : List Source :=
  (groundingItems c).filterMap sourceOfItem

/-- The search-mode primary call (app.py lines 158-183): `none` is the
PrimaryFailure signal, raised when the call raised, `candidates` is
absent or empty, the first candidate's `finishReason` is the
`"RECITATION"` policy-block sentinel, or the answer text is missing;
otherwise the first text part together with the deduplicated citations. -/
def primarySearchOutcome (r : FetchResult GeminiResult) : Option (String × List Source) :=
  match r with
  | .raised _ => none
  | .ok body =>
    match body.candidates with
    | none => none
    | some [] => none
    | some (c :: _) =>
      if c.finishReason = some "RECITATION" then none
      else
        match extractAnswer c with
        | none => none
        | some a => some (a, dedupSources (collectCitations c))

/-- The memory-mode primary call (app.py lines 186-195): direct indexing
into the first candidate's first text part, no recitation check. -/
def primaryMemoryOutcome (r : FetchResult GeminiResult) : Option String :=
  match r with
  | .raised _ => none
  | .ok body => geminiFirstText body

/-- One Wikipedia search hit; `res["title"]` raises when absent. -/
structure SearchItem where
  title : Option String
deriving DecidableEq

/-- A Wikipedia page-summary body: `extract` and the
`content_urls.desktop.page` chain, each possibly absent. -/
structure WikiSummary where
  extract : Option String
  pageUrl : Option String
deriving DecidableEq

/-- Environment of `search_wikipedia_and_summarize`: the search call, the
per-title summary calls, and the synthesis call to the generative
provider. -/
structure WikiEnv where
  search : FetchResult (List SearchItem)
  summary : String → FetchResult WikiSummary
  synthesis : FetchResult GeminiResult

/-- The gathering loop of app.py lines 66-74: for each search hit read
its title (raising if absent), fetch its summary (which may raise), and
append `{"title": f"Wikipedia: {title}", "uri": page_url}`; the page url
defaults to `""` when the `content_urls.desktop.page` chain is absent.
`none` models an exception escaping the loop. -/
def gatherSources : List SearchItem → (String → FetchResult WikiSummary) →
    Option (List Source)
  | [], _ => some []
  | item :: rest, fetchSummary =>
    match item.title with
    | none => none
    | some t =>
      match fetchSummary t with
      | .raised _ => none
      | .ok summ =>
        match gatherSources rest fetchSummary with
        | none => none
        | some tail =>
          some ({ title := "Wikipedia: " ++ t, uri := (summ.pageUrl).getD "" } :: tail)

/-- `search_wikipedia_and_summarize` (app.py lines 54-85).  Any exception
at any step is swallowed by the outer `try/except` and becomes
`(None, [])`; on success the synthesized answer and the gathered
sources.  The query only feeds outbound request parameters and the
synthesis prompt, both part of the environment. -/
def searchWikipediaAndSummarize (query : String) (env : WikiEnv) :
    Option String × List Source :=
  match env.search with
  | .raised _ => (none, [])
  | .ok items =>
    if items.isEmpty then (none, [])
    else
      match gatherSources items env.summary with
      | none => (none, [])
      | some sources =>
        match env.synthesis with
        | .raised _ => (none, [])
        | .ok body =>
          match geminiFirstText body with
          | none => (none, [])
          | some a => (some a, sources)

/-- One entry of the instant-answer `RelatedTopics` list. -/
structure RelatedTopic where
  text : Option String
  firstURL : Option String
deriving DecidableEq

/-- A decoded instant-answer response body. -/
structure DdgResponse where
  abstractText : Option String
  abstractURL : Option String
  heading : Option String
  relatedTopics : Option (List RelatedTopic)
deriving DecidableEq

/-- `duckduckgo_search` (app.py lines 88-109): abstract text if present,
else the first related topic's text; empty answer means `(None, [])`. -/
def duckduckgoSearch (query : String) (env : FetchResult DdgResponse) :
    Option String × List Source :=
  match env with
  | .raised _ => (none, [])
  | .ok r =>
    let abstract0 := (r.abstractText).getD ""
    let sourceUrl0 := (r.abstractURL).getD ""
    let heading := (r.heading).getD "DuckDuckGo Result"
    let pair :=
      if abstract0 == "" then
        match (r.relatedTopics).getD [] with
        | [] => (abstract0, sourceUrl0)
        | topic :: _ =>
          match topic.text with
          | none => (abstract0, sourceUrl0)
          | some txt => (txt, (topic.firstURL).getD "")
      else (abstract0, sourceUrl0)
    if pair.1 == "" then (none, [])
    else (some ("Here is a summary from DuckDuckGo:\n\n**" ++ heading ++ "**\n" ++ pair.1),
      [{ title := "DuckDuckGo: " ++ heading, uri := pair.2 }])

/-- The environment of one `/ask` request: outcomes of the primary call
and of each fallback provider, would they be invoked. -/
structure AskEnv where
  primary : FetchResult GeminiResult
  wiki : WikiEnv
  ddg : FetchResult DdgResponse

/-- The observable result of `/ask`: an error response with an HTTP
status, or a success-shaped `{"answer": ..., "sources": ...}` body. -/
inductive AskOutput
  | err (status : Nat) (message : String)
  | ans (answer : String) (sources : List Source)
deriving DecidableEq

/-- One recorded outbound provider invocation. -/
inductive ProviderCall
  | crawlCall (url : String)
  | primaryGemini (withSearchTool : Bool)
  | wikipediaFallback
  | duckduckgoFallback
deriving DecidableEq

/-- The crawl invocation of app.py lines 144-146: performed exactly when
the URL detector finds a URL in the last user message. -/
def crawlTrace (lastMsg : String) : List ProviderCall :=
  match extract_url lastMsg with
  | some u => [.crawlCall u]
  | none => []

/-- The canned answer of app.py line 207 (all fallbacks exhausted). -/
def noAnswerText : String :=
  "I tried searching but couldn\x27t find a confident answer. I\x27d rather be honest than guess wrong! Could you clarify?"

/-- The canned answer of app.py line 209 (memory-mode primary failure). -/
def memoryFailText : String :=
  "I\x27m having a little trouble connecting right now. Mind trying again?"

/-- The search branch of `ask_ai` (app.py lines 151-183 and 200-207):
primary call with the grounding tool; on PrimaryFailure the Wikipedia
fallback, then the instant-answer fallback, then the canned answer.
The second component records the outbound calls in execution order. -/
def searchBranch (lastMsg : String) (env : AskEnv) : AskOutput × List ProviderCall :=
  let t0 := crawlTrace lastMsg ++ [ProviderCall.primaryGemini true]
  match primarySearchOutcome env.primary with
  | some (a, srcs) => (.ans a srcs, t0)
  | none =>
    let w := searchWikipediaAndSummarize lastMsg env.wiki
    let t1 := t0 ++ [ProviderCall.wikipediaFallback]
    if truthyOptStr w.1 then (.ans ((w.1).getD "") w.2, t1)
    else
      let d := duckduckgoSearch lastMsg env.ddg
      let t2 := t1 ++ [ProviderCall.duckduckgoFallback]
      if truthyOptStr d.1 then (.ans ((d.1).getD "") d.2, t2)
      else (.ans noAnswerText [], t2)

/-- The memory branch of `ask_ai` (app.py lines 186-195 and 208-209):
primary call without the grounding tool; on failure the canned apology,
never a fallback provider. -/
def memoryBranch (lastMsg : String) (env : AskEnv) : AskOutput × List ProviderCall :=
  let t0 := crawlTrace lastMsg ++ [ProviderCall.primaryGemini false]
  match primaryMemoryOutcome env.primary with
  | some a => (.ans a [], t0)
  | none => (.ans memoryFailText [], t0)

/-- `ask_ai` of app.py (lines 111-209): credential check first (before
any outbound call), then URL detection and crawl, then the mode branch.
The persona and context text only feed the outbound payloads, which the
claims do not inspect beyond the grounding-tool flag recorded in the
trace. -/
def askAi (history : List Message) (useWebSearch : Bool) (apiKey : Option String)
    (env : AskEnv) : AskOutput × List ProviderCall :=
  if truthyOptStr apiKey then
    if useWebSearch then searchBranch (lastUserMsg history) env
    else memoryBranch (lastUserMsg history) env
  else (.err 500 "Server missing API Key", [])

/-- A citation entry as built by main.py lines 82-85: `uri` is truthy by
construction, `title` is kept even when absent (`None`). -/
structure MainSource where
  uri : Option String
  title : Option String
deriving DecidableEq

/-- The observable result of main.py's `/ask`. -/
inductive MainOutput
  | err (status : Nat) (message : String)
  | ans (answer : String) (sources : List MainSource)
deriving DecidableEq

/-- The filter of main.py line 84: keep an attribution only when
`attr.get("web", {}).get("uri")` is truthy. -/
def mainSourceOfAttr (attr : GroundingItem) : Option MainSource :=
  match attr.web with
  | none => none
  | some w => if truthyOptStr w.uri then some { uri := w.uri, title := w.title } else none

/-- Dict insertion keyed by `v['uri']` for main.py line 88. -/
def insertMainSource (acc : List MainSource) (s : MainSource) : List MainSource :=
  if s.uri ∈ acc.map MainSource.uri then
    acc.map fun t => if t.uri = s.uri then s else t
  else acc ++ [s]

/-- `list({v['uri']: v for v in sources}.values())` of main.py line 88. -/
def dedupMainSources (l : List MainSource) : List MainSource :=
  l.foldl insertMainSource []

/-- `ask_ai` of main.py (lines 33-95): missing history gives a 400,
missing credential a 500; a `RequestException` from the provider call
(transport error, non-2xx, invalid JSON) gives a 500; an `IndexError`
while indexing a present-but-empty `candidates` or `parts` list gives a
500; otherwise a success-shaped answer, with `.get` defaults standing in
for absent keys. -/
def askAiMain (history : List Message) (apiKey : Option String)
    (primary : FetchResult GeminiResult) : MainOutput :=
  if history.isEmpty then .err 400 "No conversation history provided"
  else if !(truthyOptStr apiKey) then
    .err 500 "GEMINI_API_KEY is not configured on the server"
  else
    match primary with
    | .raised _ => .err 500 "Failed to connect to the Gemini API"
    | .ok result =>
      match result.candidates with
      | some [] => .err 500 "Could not parse the response from the Gemini API"
      | candidatesOpt =>
        let candidate : Candidate :=
          match candidatesOpt with
          | some (c :: _) => c
          | _ => { content := none, finishReason := none, groundingMetadata := none }
        let partsList : List TextPart :=
          match candidate.content with
          | none => [{ text := none }]
          | some ct =>
            match ct.parts with
            | none => [{ text := none }]
            | some ps => ps
        match partsList with
        | [] => .err 500 "Could not parse the response from the Gemini API"
        | p :: _ =>
          let answer :=
            (p.text).getD "Sorry, an error occurred while processing the response."
          let attrs : List GroundingItem :=
            match candidate.groundingMetadata with
            | none => []
            | some g => (g.groundingAttributions).getD []
          .ans answer (dedupMainSources (attrs.filterMap mainSourceOfAttr))

lemma searchBranch_primary_some (lastMsg : String) (env : AskEnv) (a : String)
    (srcs : List Source) (h : primarySearchOutcome env.primary = some (a, srcs)) :
    searchBranch lastMsg env
      = (.ans a srcs, crawlTrace lastMsg ++ [ProviderCall.primaryGemini true]) := by
  unfold searchBranch
  rw [h]

lemma searchBranch_wiki_hit (lastMsg : String) (env : AskEnv)
    (hp : primarySearchOutcome env.primary = none)
    (hw : truthyOptStr (searchWikipediaAndSummarize lastMsg env.wiki).1 = true) :
    searchBranch lastMsg env
      = (.ans (((searchWikipediaAndSummarize lastMsg env.wiki).1).getD "")
            (searchWikipediaAndSummarize lastMsg env.wiki).2,
         crawlTrace lastMsg ++ [ProviderCall.primaryGemini true,
           ProviderCall.wikipediaFallback]) := by
  unfold searchBranch
  rw [hp]
  simp [hw]

lemma searchBranch_ddg_hit (lastMsg : String) (env : AskEnv)
    (hp : primarySearchOutcome env.primary = none)
    (hw : truthyOptStr (searchWikipediaAndSummarize lastMsg env.wiki).1 = false)
    (hd : truthyOptStr (duckduckgoSearch lastMsg env.ddg).1 = true) :
    searchBranch lastMsg env
      = (.ans (((duckduckgoSearch lastMsg env.ddg).1).getD "")
            (duckduckgoSearch lastMsg env.ddg).2,
         crawlTrace lastMsg ++ [ProviderCall.primaryGemini true,
           ProviderCall.wikipediaFallback, ProviderCall.duckduckgoFallback]) := by
  unfold searchBranch
  rw [hp]
  simp [hw, hd]

lemma searchBranch_all_fail (lastMsg : String) (env : AskEnv)
    (hp : primarySearchOutcome env.primary = none)
    (hw : truthyOptStr (searchWikipediaAndSummarize lastMsg env.wiki).1 = false)
    (hd : truthyOptStr (duckduckgoSearch lastMsg env.ddg).1 = false) :
    searchBranch lastMsg env
      = (.ans noAnswerText [],
         crawlTrace lastMsg ++ [ProviderCall.primaryGemini true,
           ProviderCall.wikipediaFallback, ProviderCall.duckduckgoFallback]) := by
  unfold searchBranch
  rw [hp]
  simp [hw, hd]

lemma memoryBranch_trace (lastMsg : String) (env : AskEnv) :
    (memoryBranch lastMsg env).2
      = crawlTrace lastMsg ++ [ProviderCall.primaryGemini false] := by
  unfold memoryBranch
  cases primaryMemoryOutcome env.primary <;> rfl

lemma crawlTrace_calls (lastMsg : String) (c : ProviderCall)
    (h : c ∈ crawlTrace lastMsg) : ∃ u, c = .crawlCall u := by
  unfold crawlTrace at h
  cases hx : extract_url lastMsg with
  | none => rw [hx] at h; simp at h
  | some u =>
    rw [hx] at h
    simp only [List.mem_singleton] at h
    exact ⟨u, h⟩

/-- **C5.** When `useWebSearch` is false (RetrievalMode = Memory), no
fallback provider is ever invoked regardless of the primary outcome, and
the one primary call is made without the grounding tool
(`tools: [{"google_search": {}}]` appears only in the search branch,
app.py lines 158-162 versus 187-190). -/
theorem memory_mode_no_fallback (history : List Message) (apiKey : Option String)
    (env : AskEnv) :
    ProviderCall.wikipediaFallback ∉ (askAi history false apiKey env).2 ∧
    ProviderCall.duckduckgoFallback ∉ (askAi history false apiKey env).2 ∧
    ProviderCall.primaryGemini true ∉ (askAi history false apiKey env).2 := by
  unfold askAi
  by_cases hk : truthyOptStr apiKey = true
  · simp only [hk, if_true, if_false, Bool.false_eq_true]
    rw [memoryBranch_trace]
    refine ⟨?_, ?_, ?_⟩ <;>
    · intro hmem
      rcases List.mem_append.mp hmem with hc | hc
      · obtain ⟨u, hu⟩ := crawlTrace_calls _ _ hc
        exact absurd hu (by simp)
      · simp at hc
  · simp only [Bool.not_eq_true] at hk
    simp [hk]

/-- Witness for `memory_mode_no_fallback` at a concrete request. -/
theorem memory_mode_no_fallback_witness :
    ProviderCall.wikipediaFallback
      ∉ (askAi demoHistory false (some "key")
          ⟨.raised "down", ⟨.raised "down", fun _ => .raised "down", .raised "down"⟩,
            .raised "down"⟩).2 :=
  (memory_mode_no_fallback demoHistory (some "key") _).1

/-- **C6.** The Fallback Provider Chain (app.py lines 197-207): a
fallback provider runs iff the request was in search mode, the primary
call was actually made, and it ended in PrimaryFailure; the
instant-answer provider is only ever called immediately after the
Wikipedia provider, and only when the Wikipedia provider produced no
truthy answer (short-circuit on first success). -/
theorem fallback_chain_spec (history : List Message) (useWebSearch : Bool)
    (apiKey : Option String) (env : AskEnv) :
    ((ProviderCall.wikipediaFallback ∈ (askAi history useWebSearch apiKey env).2 ∨
      ProviderCall.duckduckgoFallback ∈ (askAi history useWebSearch apiKey env).2) ↔
      (useWebSearch = true ∧
       ProviderCall.primaryGemini true ∈ (askAi history useWebSearch apiKey env).2 ∧
       primarySearchOutcome env.primary = none)) ∧
    (ProviderCall.duckduckgoFallback ∈ (askAi history useWebSearch apiKey env).2 →
      (∃ pre, (askAi history useWebSearch apiKey env).2
        = pre ++ [ProviderCall.wikipediaFallback, ProviderCall.duckduckgoFallback]) ∧
      truthyOptStr (searchWikipediaAndSummarize (lastUserMsg history) env.wiki).1
        = false) := by
  unfold askAi
  by_cases hk : truthyOptStr apiKey = true
  · simp only [hk, if_true]
    cases useWebSearch with
    | false =>
      simp only [Bool.false_eq_true, if_false]
      rw [memoryBranch_trace]
      constructor
      · constructor
        · intro hmem
          exfalso
          rcases hmem with hmem | hmem <;>
          · rcases List.mem_append.mp hmem with hc | hc
            · obtain ⟨u, hu⟩ := crawlTrace_calls _ _ hc
              exact absurd hu (by simp)
            · simp at hc
        · rintro ⟨h, _⟩
          exact absurd h (by simp)
      · intro hmem
        exfalso
        rcases List.mem_append.mp hmem with hc | hc
        · obtain ⟨u, hu⟩ := crawlTrace_calls _ _ hc
          exact absurd hu (by simp)
        · simp at hc
    | true =>
      simp only [if_true]
      cases hp : primarySearchOutcome env.primary with
      | some pr =>
        rw [searchBranch_primary_some (lastUserMsg history) env pr.1 pr.2 (by rw [hp])]
        constructor
        · constructor
          · intro hmem
            exfalso
            rcases hmem with hmem | hmem <;>
            · rcases List.mem_append.mp hmem with hc | hc
              · obtain ⟨u, hu⟩ := crawlTrace_calls _ _ hc
                exact absurd hu (by simp)
              · simp at hc
          · rintro ⟨_, _, h⟩
            simp at h
        · intro hmem
          exfalso
          rcases List.mem_append.mp hmem with hc | hc
          · obtain ⟨u, hu⟩ := crawlTrace_calls _ _ hc
            exact absurd hu (by simp)
          · simp at hc
      | none =>
        by_cases hw : truthyOptStr
            (searchWikipediaAndSummarize (lastUserMsg history) env.wiki).1 = true
        · rw [searchBranch_wiki_hit (lastUserMsg history) env hp hw]
          constructor
          · simp
          · intro hmem
            exfalso
            simp only [List.mem_append] at hmem
            rcases hmem with hc | hc
            · obtain ⟨u, hu⟩ := crawlTrace_calls _ _ hc
              exact absurd hu (by simp)
            · simp at hc
        · have hw' : truthyOptStr
              (searchWikipediaAndSummarize (lastUserMsg history) env.wiki).1 = false := by
            revert hw
            cases truthyOptStr (searchWikipediaAndSummarize (lastUserMsg history) env.wiki).1 <;>
              simp
          by_cases hd : truthyOptStr (duckduckgoSearch (lastUserMsg history) env.ddg).1 = true
          · rw [searchBranch_ddg_hit (lastUserMsg history) env hp hw' hd]
            refine ⟨by simp, fun _ => ⟨?_, hw'⟩⟩
            refine ⟨crawlTrace (lastUserMsg history) ++ [ProviderCall.primaryGemini true], ?_⟩
            simp
          · have hd' : truthyOptStr (duckduckgoSearch (lastUserMsg history) env.ddg).1 = false := by
              revert hd
              cases truthyOptStr (duckduckgoSearch (lastUserMsg history) env.ddg).1 <;> simp
            rw [searchBranch_all_fail (lastUserMsg history) env hp hw' hd']
            refine ⟨by simp, fun _ => ⟨?_, hw'⟩⟩
            refine ⟨crawlTrace (lastUserMsg history) ++ [ProviderCall.primaryGemini true], ?_⟩
            simp
  · have hk' : truthyOptStr apiKey = false := by
      revert hk
      cases truthyOptStr apiKey <;> simp
    simp [hk']

/-- Witness for `fallback_chain_spec` at a concrete request where the
primary call fails and both fallbacks are reached. -/
theorem fallback_chain_spec_witness :
    ProviderCall.wikipediaFallback
      ∈ (askAi demoHistory true (some "key")
          ⟨.raised "down", ⟨.raised "down", fun _ => .raised "down", .raised "down"⟩,
            .raised "down"⟩).2 := by
  have h := (fallback_chain_spec demoHistory true (some "key")
      ⟨.raised "down", ⟨.raised "down", fun _ => .raised "down", .raised "down"⟩,
        .raised "down"⟩).1
  have hm := h.mpr ⟨rfl, by decide, by decide⟩
  rcases hm with hm | hm
  · exact hm
  · have := (fallback_chain_spec demoHistory true (some "key")
        ⟨.raised "down", ⟨.raised "down", fun _ => .raised "down", .raised "down"⟩,
          .raised "down"⟩).2 hm
    obtain ⟨pre, hpre⟩ := this.1
    rw [hpre]
    simp

/-- **C7 counterexample.** The claim says a missing credential is the
only condition surfaced as a server-error status and that provider
transport failures never yield one.  In the main.py variant of the
resolve-answer operation, a request with the credential present whose
provider call raises a transport error is answered with HTTP 500. -/
theorem server_error_claim_counterexample :
    truthyOptStr (some "key") = true ∧
    askAiMain [⟨"user", "hi"⟩] (some "key") (.raised "connection refused")
      = MainOutput.err 500 "Failed to connect to the Gemini API" := by
  constructor
  · decide
  · rfl

/-- **C7 (amended).** In app.py's `/ask` the claim holds: a missing
credential is the only server-error condition, detected before any
outbound call (the recorded trace is empty); with a credential present
the response is always success-shaped; when every provider involved
fails, the answer is the canned apologetic text with an empty source
list.  main.py's `/ask`, however, also returns a server-error status on
a primary transport failure (and a 400 on missing history). -/
theorem server_error_spec (history : List Message) (useWebSearch : Bool)
    (apiKey : Option String) (env : AskEnv) :
    (truthyOptStr apiKey = false →
      askAi history useWebSearch apiKey env
        = (.err 500 "Server missing API Key", [])) ∧
    (truthyOptStr apiKey = true →
      ∃ a s, (askAi history useWebSearch apiKey env).1 = .ans a s) ∧
    (truthyOptStr apiKey = true → useWebSearch = true →
      primarySearchOutcome env.primary = none →
      truthyOptStr (searchWikipediaAndSummarize (lastUserMsg history) env.wiki).1 = false →
      truthyOptStr (duckduckgoSearch (lastUserMsg history) env.ddg).1 = false →
      (askAi history useWebSearch apiKey env).1 = .ans noAnswerText []) ∧
    (truthyOptStr apiKey = true → useWebSearch = false →
      primaryMemoryOutcome env.primary = none →
      (askAi history useWebSearch apiKey env).1 = .ans memoryFailText []) ∧
    (∀ msg, history ≠ [] → truthyOptStr apiKey = true →
      askAiMain history apiKey (.raised msg)
        = .err 500 "Failed to connect to the Gemini API") := by
  refine ⟨?_, ?_, ?_, ?_, ?_⟩
  · intro hk
    unfold askAi
    rw [hk]
    rfl
  · intro hk
    unfold askAi
    rw [hk]
    simp only [if_true]
    cases useWebSearch with
    | false =>
      simp only [Bool.false_eq_true, if_false]
      unfold memoryBranch
      cases primaryMemoryOutcome env.primary with
      | some a => exact ⟨a, [], rfl⟩
      | none => exact ⟨memoryFailText, [], rfl⟩
    | true =>
      simp only [if_true]
      unfold searchBranch
      cases hp : primarySearchOutcome env.primary with
      | some pr => exact ⟨pr.1, pr.2, rfl⟩
      | none =>
        by_cases hw : truthyOptStr
            (searchWikipediaAndSummarize (lastUserMsg history) env.wiki).1 = true
        · simp only [hw, if_true]
          exact ⟨_, _, rfl⟩
        · simp only [hw, if_false, Bool.not_eq_true] at hw ⊢
          simp only [hw, Bool.false_eq_true, if_false]
          by_cases hd : truthyOptStr (duckduckgoSearch (lastUserMsg history) env.ddg).1 = true
          · simp only [hd, if_true]
            exact ⟨_, _, rfl⟩
          · simp only [Bool.not_eq_true] at hd
            simp only [hd, Bool.false_eq_true, if_false]
            exact ⟨_, _, rfl⟩
  · intro hk hws hp hw hd
    subst hws
    unfold askAi
    rw [hk]
    simp only [if_true]
    rw [searchBranch_all_fail (lastUserMsg history) env hp hw hd]
  · intro hk hws hp
    subst hws
    unfold askAi
    rw [hk]
    simp only [Bool.false_eq_true, if_false, if_true]
    unfold memoryBranch
    rw [hp]
  · intro msg hne hk
    unfold askAiMain
    rw [hk]
    have hhist : history.isEmpty = false := by
      cases history with
      | nil => exact absurd rfl hne
      | cons a l => rfl
    rw [hhist]
    rfl

/-- Witness for `server_error_spec`: the missing-credential case at a
concrete request (server error, no outbound call recorded), and the
main.py transport-failure case. -/
theorem server_error_spec_witness :
    askAi demoHistory true none
        ⟨.raised "down", ⟨.raised "down", fun _ => .raised "down", .raised "down"⟩,
          .raised "down"⟩
      = (.err 500 "Server missing API Key", []) ∧
    askAiMain demoHistory (some "key") (.raised "refused")
      = .err 500 "Failed to connect to the Gemini API" := by
  constructor
  · exact (server_error_spec demoHistory true none _).1 rfl
  · exact (server_error_spec demoHistory true (some "key")
      ⟨.raised "down", ⟨.raised "down", fun _ => .raised "down", .raised "down"⟩,
        .raised "down"⟩).2.2.2.2 "refused" (by decide) (by decide)

lemma primarySearchOutcome_ok (body : GeminiResult) :
    primarySearchOutcome (.ok body)
      = match body.candidates with
        | none => none
        | some [] => none
        | some (c :: _) =>
          if c.finishReason = some "RECITATION" then none
          else
            match extractAnswer c with
            | none => none
            | some a => some (a, dedupSources (collectCitations c)) := rfl

lemma primarySearchOutcome_ok_cons (body : GeminiResult) (c : Candidate)
    (rest : List Candidate) (hc : body.candidates = some (c :: rest)) :
    primarySearchOutcome (.ok body)
      = if c.finishReason = some "RECITATION" then none
        else
          match extractAnswer c with
          | none => none
          | some a => some (a, dedupSources (collectCitations c)) := by
  rw [primarySearchOutcome_ok, hc]

lemma primarySearchOutcome_no_candidates (body : GeminiResult)
    (hc : body.candidates = none) : primarySearchOutcome (.ok body) = none := by
  rw [primarySearchOutcome_ok, hc]

lemma primarySearchOutcome_empty (body : GeminiResult)
    (hc : body.candidates = some []) : primarySearchOutcome (.ok body) = none := by
  rw [primarySearchOutcome_ok, hc]

lemma sourceOfItem_eq_some (item : GroundingItem) (s : Source) :
    sourceOfItem item = some s ↔ ∃ w, item.web = some w ∧
      truthyOptStr w.uri = true ∧ truthyOptStr w.title = true ∧
      s = { title := (w.title).getD "", uri := (w.uri).getD "" } := by
  obtain ⟨web⟩ := item
  cases web with
  | none => simp [sourceOfItem]
  | some w =>
    simp only [sourceOfItem, Option.some.injEq]
    by_cases ht : (truthyOptStr w.uri && truthyOptStr w.title) = true
    · rw [if_pos ht]
      rw [Bool.and_eq_true] at ht
      constructor
      · intro h
        injection h with h
        exact ⟨w, rfl, ht.1, ht.2, h.symm⟩
      · rintro ⟨w', hw', hu, hti, rfl⟩
        subst hw'
        rfl
    · rw [if_neg ht]
      rw [Bool.and_eq_true] at ht
      constructor
      · intro h
        exact absurd h (by simp)
      · rintro ⟨w', hw', hu, hti, rfl⟩
        subst hw'
        exact absurd ⟨hu, hti⟩ ht

lemma mem_collectCitations (c : Candidate) (s : Source) :
    s ∈ collectCitations c ↔
      ∃ item ∈ groundingItems c, sourceOfItem item = some s := by
  unfold collectCitations
  rw [List.mem_filterMap]

/-- A candidate blocked by the `"RECITATION"` policy sentinel. -/
def blockedCandidate : Candidate :=
  { content := some { parts := some [{ text := some "blocked text" }] },
    finishReason := some "RECITATION", groundingMetadata := none }

/-- A perfectly usable candidate (termination `"STOP"`, text present). -/
def goodCandidate : Candidate :=
  { content := some { parts := some [{ text := some "good answer" }] },
    finishReason := some "STOP", groundingMetadata := none }

/-- A provider response whose second candidate is usable. -/
def twoCandidateResult : GeminiResult :=
  { candidates := some [blockedCandidate, goodCandidate] }

/-- **C8 counterexample.** The claim says the engine succeeds exactly
when the response contains *at least one* candidate with a non-blocked
termination reason and a text part.  A response whose first candidate is
policy-blocked but whose second candidate is usable satisfies that
condition, yet app.py (line 169, `result["candidates"][0]`) inspects
only the first candidate and signals PrimaryFailure. -/
theorem primary_engine_claim_counterexample :
    primarySearchOutcome (.ok twoCandidateResult) = none ∧
    goodCandidate ∈ (twoCandidateResult.candidates).getD [] ∧
    goodCandidate.finishReason ≠ some "RECITATION" ∧
    extractAnswer goodCandidate = some "good answer" := by
  refine ⟨?_, by decide, by decide, by decide⟩
  rw [primarySearchOutcome_ok_cons twoCandidateResult blockedCandidate [goodCandidate] rfl]
  rfl

/-- **C8 (amended).** The Primary Answering Engine (app.py lines
158-183) succeeds exactly when the call returned a body whose candidate
list is present and non-empty, whose *first* candidate has a termination
reason other than the `"RECITATION"` policy-block sentinel, and whose
first candidate's first content part carries a text field — that text is
the answer; its citations are exactly the grounding-chunk and
grounding-attribution entries of that candidate exposing both a truthy
URI and a truthy title, and no others (then deduplicated); every failure
collapses to the single PrimaryFailure signal `none` rather than a
raised error. -/
theorem primary_engine_spec (r : FetchResult GeminiResult) :
    ((primarySearchOutcome r).isSome = true ↔
      ∃ body c rest a, r = .ok body ∧ body.candidates = some (c :: rest) ∧
        c.finishReason ≠ some "RECITATION" ∧ extractAnswer c = some a) ∧
    (∀ body c rest a, r = .ok body → body.candidates = some (c :: rest) →
      c.finishReason ≠ some "RECITATION" → extractAnswer c = some a →
      primarySearchOutcome r = some (a, dedupSources (collectCitations c))) ∧
    (∀ c s, s ∈ collectCitations c ↔
      ∃ item ∈ groundingItems c, ∃ w, item.web = some w ∧
        truthyOptStr w.uri = true ∧ truthyOptStr w.title = true ∧
        s = { title := (w.title).getD "", uri := (w.uri).getD "" }) := by
  have hstep : ∀ body c rest a, body.candidates = some (c :: rest) →
      c.finishReason ≠ some "RECITATION" → extractAnswer c = some a →
      primarySearchOutcome (.ok body) = some (a, dedupSources (collectCitations c)) := by
    intro body c rest a hc hfr ha
    rw [primarySearchOutcome_ok_cons body c rest hc, if_neg hfr, ha]
  refine ⟨?_, fun body c rest a hr => hr ▸ hstep body c rest a, ?_⟩
  · constructor
    · intro h
      cases r with
      | raised m => exact absurd h (by simp [primarySearchOutcome])
      | ok body =>
        cases hc : body.candidates with
        | none => rw [primarySearchOutcome_no_candidates body hc] at h; simp at h
        | some cands =>
          cases cands with
          | nil => rw [primarySearchOutcome_empty body hc] at h; simp at h
          | cons c rest =>
            rw [primarySearchOutcome_ok_cons body c rest hc] at h
            by_cases hfr : c.finishReason = some "RECITATION"
            · rw [if_pos hfr] at h
              simp at h
            · rw [if_neg hfr] at h
              cases ha : extractAnswer c with
              | none => rw [ha] at h; simp at h
              | some a => exact ⟨body, c, rest, a, rfl, hc, hfr, ha⟩
    · rintro ⟨body, c, rest, a, rfl, hc, hfr, ha⟩
      rw [hstep body c rest a hc hfr ha]
      rfl
  · intro c s
    rw [mem_collectCitations]
    constructor
    · rintro ⟨item, hmem, hsi⟩
      obtain ⟨w, hw, hu, hti, rfl⟩ := (sourceOfItem_eq_some item s).mp hsi
      exact ⟨item, hmem, w, hw, hu, hti, rfl⟩
    · rintro ⟨item, hmem, w, hw, hu, hti, rfl⟩
      exact ⟨item, hmem, (sourceOfItem_eq_some item _).mpr ⟨w, hw, hu, hti, rfl⟩⟩

/-- A response body containing only the usable candidate. -/
def goodBody : GeminiResult := { candidates := some [goodCandidate] }

/-- Witness for `primary_engine_spec` at a concrete response body. -/
theorem primary_engine_spec_witness :
    primarySearchOutcome (.ok goodBody)
      = some ("good answer", dedupSources (collectCitations goodCandidate)) :=
  (primary_engine_spec (.ok goodBody)).2.1 goodBody goodCandidate [] "good answer"
    rfl rfl (by decide) (by decide)

lemma gatherSources_forall₂ (items : List SearchItem)
    (fetchSummary : String → FetchResult WikiSummary) :
    ∀ sources, gatherSources items fetchSummary = some sources →
      List.Forall₂ (fun item src => ∃ t summ, item.title = some t ∧
        fetchSummary t = .ok summ ∧
        src = { title := "Wikipedia: " ++ t, uri := (summ.pageUrl).getD "" })
        items sources := by
  induction items with
  | nil =>
    intro sources h
    simp only [gatherSources, Option.some.injEq] at h
    subst h
    exact List.Forall₂.nil
  | cons item rest ih =>
    intro sources h
    simp only [gatherSources] at h
    cases hti : item.title with
    | none => simp [hti] at h
    | some t =>
      simp only [hti] at h
      cases hf : fetchSummary t with
      | raised m => simp [hf] at h
      | ok summ =>
        simp only [hf] at h
        cases hg : gatherSources rest fetchSummary with
        | none => simp [hg] at h
        | some tail =>
          simp only [hg, Option.some.injEq] at h
          subst h
          exact List.Forall₂.cons ⟨t, summ, hti, hf, rfl⟩ (ih tail hg)

lemma searchWiki_ok (query : String) (env : WikiEnv) (items : List SearchItem)
    (ans : String) (sources : List Source)
    (hsearch : env.search = .ok items)
    (h : searchWikipediaAndSummarize query env = (some ans, sources)) :
    gatherSources items env.summary = some sources := by
  unfold searchWikipediaAndSummarize at h
  simp only [hsearch] at h
  by_cases hempty : items.isEmpty = true
  · rw [if_pos hempty] at h
    simp at h
  · rw [if_neg hempty] at h
    cases hg : gatherSources items env.summary with
    | none => simp [hg] at h
    | some s' =>
      simp only [hg] at h
      cases hsyn : env.synthesis with
      | raised m => simp [hsyn] at h
      | ok body =>
        simp only [hsyn] at h
        cases hft : geminiFirstText body with
        | none => simp [hft] at h
        | some a =>
          simp only [hft, Prod.mk.injEq] at h
          rw [h.2]

/-- **C9 counterexample.** The claim says that when the Wikipedia
fallback answers, the output source list is the gathered article pairs
*deduplicated by uri*.  In app.py line 202 the Wikipedia source list is
returned as gathered, without deduplication: with two articles whose
summaries lack a `content_urls.desktop.page` url, both gathered pairs
carry uri `""` and both appear in the output, although their
deduplication would keep only one. -/
theorem wiki_sources_claim_counterexample :
    (askAi [⟨"user", "q"⟩] true (some "key")
        ⟨.raised "down",
          ⟨.ok [⟨some "A"⟩, ⟨some "B"⟩],
            fun _ => .ok ⟨some "info", none⟩,
            .ok ⟨some [⟨some ⟨some [⟨some "synth"⟩]⟩, none, none⟩]⟩⟩,
          .raised "unused"⟩).1
      = .ans "synth" [{ title := "Wikipedia: A", uri := "" },
          { title := "Wikipedia: B", uri := "" }] ∧
    dedupSources [{ title := "Wikipedia: A", uri := "" },
        { title := "Wikipedia: B", uri := "" }]
      ≠ [{ title := "Wikipedia: A", uri := "" },
          { title := "Wikipedia: B", uri := "" }] := by
  constructor
  · decide
  · decide

/-- **C9 (amended).** When the mode is Search, the primary engine fails,
and the Wikipedia fallback returns a non-empty synthesized answer, the
output's source list equals exactly the at-most-3 gathered article
`{title, uri}` pairs in gathering order — one per search hit, titled
`"Wikipedia: " ++ title` with the summary's page url (default `""`) —
with no deduplication applied. -/
theorem wiki_fallback_sources_spec (history : List Message) (apiKey : Option String)
    (env : AskEnv) (items : List SearchItem) (sources : List Source) (ans : String)
    (hk : truthyOptStr apiKey = true)
    (hp : primarySearchOutcome env.primary = none)
    (hsearch : env.wiki.search = .ok items)
    (hlen : items.length ≤ 3)
    (hwiki : searchWikipediaAndSummarize (lastUserMsg history) env.wiki
      = (some ans, sources))
    (hne : ans ≠ "") :
    (askAi history true apiKey env).1 = .ans ans sources ∧
    sources.length ≤ 3 ∧
    List.Forall₂ (fun item src => ∃ t summ, item.title = some t ∧
      env.wiki.summary t = .ok summ ∧
      src = { title := "Wikipedia: " ++ t, uri := (summ.pageUrl).getD "" })
      items sources := by
  have htr : truthyOptStr (searchWikipediaAndSummarize (lastUserMsg history) env.wiki).1
      = true := by
    rw [hwiki]
    simpa [truthyOptStr] using hne
  have hfa := gatherSources_forall₂ items env.wiki.summary sources
    (searchWiki_ok (lastUserMsg history) env.wiki items ans sources hsearch hwiki)
  refine ⟨?_, ?_, hfa⟩
  · unfold askAi
    rw [hk]
    simp only [if_true]
    rw [searchBranch_wiki_hit (lastUserMsg history) env hp htr, hwiki]
    rfl
  · rw [← hfa.length_eq]
    exact hlen

/-- Witness for `wiki_fallback_sources_spec` at a concrete request. -/
theorem wiki_fallback_sources_spec_witness :
    (askAi [⟨"user", "q"⟩] true (some "key")
        ⟨.raised "down",
          ⟨.ok [⟨some "Alpha"⟩],
            fun _ => .ok ⟨some "info", some "https://w/A"⟩,
            .ok ⟨some [⟨some ⟨some [⟨some "synth"⟩]⟩, none, none⟩]⟩⟩,
          .raised "unused"⟩).1
      = .ans "synth" [{ title := "Wikipedia: Alpha", uri := "https://w/A" }] ∧
    ([{ title := "Wikipedia: Alpha", uri := "https://w/A" }] : List Source).length ≤ 3 := by
  have h := wiki_fallback_sources_spec [⟨"user", "q"⟩] (some "key")
    ⟨.raised "down",
      ⟨.ok [⟨some "Alpha"⟩],
        fun _ => .ok ⟨some "info", some "https://w/A"⟩,
        .ok ⟨some [⟨some ⟨some [⟨some "synth"⟩]⟩, none, none⟩]⟩⟩,
      .raised "unused"⟩
    [⟨some "Alpha"⟩] [{ title := "Wikipedia: Alpha", uri := "https://w/A" }] "synth"
    (by decide) (by decide) rfl (by decide) (by decide) (by decide)
  exact ⟨h.1, h.2.1⟩
